import Mathlib

/-!
Verification of the scheduling backend (`backend/server.py`) of the
igextreme-agendamento repository: a shallow embedding of the slot store,
the appointment ledger and the booking coordinator operations, together
with proofs of the specified consistency properties.

Modelling conventions:
* MongoDB collections become Lean lists kept in insertion order;
  `find_one` is `List.find?` (first match), `update_one` updates the first
  matching element, `delete_one` removes the first matching element.
* `uuid.uuid4()` identifiers are modelled by a fresh-identifier counter
  `nextId` in the database state: every inserted document consumes the
  current counter value.  This preserves the only property the code relies
  on: a freshly generated identifier never collides with an existing one.
* `created_at` timestamps are omitted: no operation reads them.
-/

namespace Sched

/-- A document of the `available_slots` collection (Pydantic `AvailableSlot`,
without the unread `created_at` field; the `id` uuid is a `Nat`). -/
structure Slot where
  id : Nat
  date : String
  time : String
  type : String := "appointment"
  is_available : Bool := true
  deriving DecidableEq, Repr

/-- A document of the `appointments` collection (Pydantic `Appointment`,
without the unread `created_at` field). -/
structure Appointment where
  id : Nat
  slot_id : Nat
  client_name : String
  whatsapp : String
  notes : Option String := none
  date : String
  time : String
  status : String := "confirmed"
  deriving DecidableEq, Repr

/-- The database state: both collections in insertion order plus the
fresh-identifier counter standing for the uuid generator. -/
structure DB where
  slots : List Slot
  appts : List Appointment
  nextId : Nat
  deriving DecidableEq, Repr

def emptyDB : DB := { slots := [], appts := [], nextId := 0 }

/-- Mongo `update_one`: apply `f` to the first element satisfying `p`. -/
def updateFirst (p : α → Bool) (f : α → α) : List α → List α
  | [] => []
  | x :: xs => if p x then f x :: xs else x :: updateFirst p f xs

/-- Outcome of `POST /api/appointments` (`create_appointment`). -/
inductive BookResult where
  /-- 400 "Selected slot is not available" -/
  | slotUnavailable
  /-- 400 "This slot is already booked" -/
  | alreadyBooked
  /-- 201 with the created appointment -/
  | ok (appt : Appointment)
  deriving DecidableEq, Repr

/-- Step (a) of `create_appointment`: the slot lookup
`find_one({"id": slot_id, "is_available": True})` succeeds. -/
def bookCheckSlot (db : DB) (slot_id : Nat) : Bool :=
  (db.slots.find? (fun s => s.id == slot_id && s.is_available)).isSome

/-- Step (b) of `create_appointment`: the ledger lookup
`find_one({"slot_id": slot_id, "status": {"$ne": "cancelled"}})` finds
nothing. -/
def bookCheckLedger (db : DB) (slot_id : Nat) : Bool :=
  (db.appts.find? (fun a => a.slot_id == slot_id && a.status != "cancelled")).isNone

/-- Step (c) of `create_appointment`: `appointments_collection.insert_one`. -/
def bookInsertAppt (db : DB) (a : Appointment) : DB :=
  { db with appts := db.appts ++ [a], nextId := db.nextId + 1 }

/-- Step (d) of `create_appointment`:
`update_one({"id": slot_id}, {"$set": {"is_available": False}})`. -/
def bookFlipSlot (db : DB) (slot_id : Nat) : DB :=
  { db with
    slots := updateFirst (fun s => s.id == slot_id)
      (fun s => { s with is_available := false }) db.slots }

/-- The appointment document built by `Appointment(**appointment.dict())`:
status defaults to `"confirmed"`, and `date`/`time` are the caller-supplied
request fields (not read back from the slot). -/
def newAppointment (db : DB) (slot_id : Nat) (client_name whatsapp : String)
    (notes : Option String) (date time : String) : Appointment :=
  { id := db.nextId, slot_id, client_name, whatsapp, notes, date, time,
    status := "confirmed" }

/-- `POST /api/appointments` (`create_appointment`), run to completion as one
sequential call.  The WhatsApp notification (step e) is fire-and-forget and
does not touch the database, so it is not part of the state transition. -/
def create_appointment (db : DB) (slot_id : Nat) (client_name whatsapp : String)
    (notes : Option String) (date time : String) : BookResult × DB :=
  if bookCheckSlot db slot_id then
    if bookCheckLedger db slot_id then
      let a := newAppointment db slot_id client_name whatsapp notes date time
      (.ok a, bookFlipSlot (bookInsertAppt db a) slot_id)
    else (.alreadyBooked, db)
  else (.slotUnavailable, db)

/-- Outcome of `PUT /api/appointments/{id}/cancel` (`cancel_appointment`). -/
inductive CancelResult where
  /-- 404 "Appointment not found" -/
  | notFound
  /-- 200 "Appointment cancelled successfully" -/
  | ok
  deriving DecidableEq, Repr

/-- `PUT /api/appointments/{appointment_id}/cancel` (`cancel_appointment`):
look the appointment up by id, set its status to `"cancelled"` and set its
slot's `is_available` back to `True` — both unconditionally. -/
def cancel_appointment (db : DB) (appointment_id : Nat) : CancelResult × DB :=
  match db.appts.find? (fun a => a.id == appointment_id) with
  | none => (.notFound, db)
  | some appt =>
      let appts := updateFirst (fun a => a.id == appointment_id)
        (fun a => { a with status := "cancelled" }) db.appts
      let slots := updateFirst (fun s => s.id == appt.slot_id)
        (fun s => { s with is_available := true }) db.slots
      (.ok, { db with appts := appts, slots := slots })

/-- Outcome of `DELETE /api/available-slots/{id}` (`delete_available_slot`). -/
inductive DeleteResult where
  /-- 400 "Cannot delete slot with existing appointments" -/
  | conflict
  /-- 404 "Slot not found" -/
  | notFound
  /-- 200 "Slot deleted successfully" -/
  | ok
  deriving DecidableEq, Repr

/-- `DELETE /api/available-slots/{slot_id}` (`delete_available_slot`): refuse
if a non-cancelled appointment references the slot, otherwise `delete_one` by
id and report 404 when nothing was deleted. -/
def delete_available_slot (db : DB) (slot_id : Nat) : DeleteResult × DB :=
  match db.appts.find? (fun a => a.slot_id == slot_id && a.status != "cancelled") with
  | some _ => (.conflict, db)
  | none =>
      if (db.slots.find? (fun s => s.id == slot_id)).isSome then
        (.ok, { db with slots := db.slots.eraseP (fun s => s.id == slot_id) })
      else (.notFound, db)

/-- Outcome of `POST /api/available-slots` (`create_available_slot`). -/
inductive CreateResult where
  /-- 400 "Slot already exists for this date and time" -/
  | conflict
  /-- 201 with the created slot -/
  | ok (slot : Slot)
  deriving DecidableEq, Repr

/-- `POST /api/available-slots` (`create_available_slot`): refuse when a slot
with the same (date, time) already exists, otherwise insert a fresh slot with
`is_available = True`. -/
def create_available_slot (db : DB) (date time type : String) : CreateResult × DB :=
  match db.slots.find? (fun s => s.date == date && s.time == time) with
  | some _ => (.conflict, db)
  | none =>
      let s : Slot := { id := db.nextId, date, time, type, is_available := true }
      (.ok s, { db with slots := db.slots ++ [s], nextId := db.nextId + 1 })

/-! ### Calendar generator and bulk scheduling -/

/-- Zero-padded two-digit rendering, as Python's `f"{n:02d}"`. -/
def fmt2 (n : Nat) : String :=
  if n < 10 then "0" ++ toString n else toString n

/-- Zero-padded four-digit rendering, as `strftime`'s `%Y` for our years. -/
def fmt4 (n : Nat) : String :=
  if n < 10 then "000" ++ toString n
  else if n < 100 then "00" ++ toString n
  else if n < 1000 then "0" ++ toString n
  else toString n

/-- One `"HH:MM:00"` time string, as `f"{hour:02d}:{minute:02d}:00"`. -/
def timeStr (hour minute : Nat) : String :=
  fmt2 hour ++ ":" ++ fmt2 minute ++ ":00"

/-- `for hour in range(lo, hi): for minute in [0, 30]` of `generate_time_slots`. -/
def halfHourRange (lo hi : Nat) : List String :=
  (List.range (hi - lo)).flatMap (fun i => [0, 30].map (fun m => timeStr (lo + i) m))

/-- `generate_time_slots()`: the weekday-morning, weekday-afternoon and
Saturday half-hour grids. -/
def generate_time_slots : List String × List String × List String :=
  (halfHourRange 8 12, halfHourRange 16 20, halfHourRange 9 12)

/-- Civil date (y, m, d) to a day count (days since 0000-03-01, proleptic
Gregorian), the arithmetic backing `datetime` + `timedelta`. -/
def daysFromCivil (y m d : Nat) : Nat :=
  let y' := if m ≤ 2 then y - 1 else y
  let era := y' / 400
  let yoe := y' % 400
  let mp := (m + 9) % 12
  let doy := (153 * mp + 2) / 5 + d - 1
  let doe := yoe * 365 + yoe / 4 - yoe / 100 + doy
  era * 146097 + doe

/-- Inverse of `daysFromCivil`: day count back to a civil (y, m, d). -/
def civilFromDays (z : Nat) : Nat × Nat × Nat :=
  let era := z / 146097
  let doe := z % 146097
  let yoe := (doe - doe / 1460 + doe / 36524 - doe / 146096) / 365
  let y := yoe + era * 400
  let doy := doe - (365 * yoe + yoe / 4 - yoe / 100)
  let mp := (5 * doy + 2) / 153
  let d := doy - (153 * mp + 2) / 5 + 1
  let m := if mp < 10 then mp + 3 else mp - 9
  (if m ≤ 2 then y + 1 else y, m, d)

/-- Python's `date.weekday()` (Monday = 0 … Sunday = 6) on a day count:
day count 739191 is 2024-01-01, a Monday. -/
def weekdayOf (z : Nat) : Nat := (z + 2) % 7

/-- `current_date.strftime("%Y-%m-%d")` on a day count. -/
def dateStrOf (z : Nat) : String :=
  let c := civilFromDays z
  fmt4 c.1 ++ "-" ++ fmt2 c.2.1 ++ "-" ++ fmt2 c.2.2

/-- Split a character list at every `'-'`. -/
def splitDash : List Char → List (List Char)
  | [] => [[]]
  | c :: rest =>
      if c = '-' then [] :: splitDash rest
      else
        match splitDash rest with
        | [] => [[c]]
        | h :: t => (c :: h) :: t

/-- Parse a non-empty all-digit character list as a decimal number. -/
def digitsToNat (cs : List Char) : Option Nat :=
  if cs.isEmpty then none
  else
    cs.foldl
      (fun acc c =>
        match acc with
        | none => none
        | some n => if c.isDigit then some (n * 10 + (c.toNat - 48)) else none)
      (some 0)

/-- `datetime.strptime(s, "%Y-%m-%d")`, as a day count; `none` models the
`ValueError` branch (caught and turned into a 500 response). -/
def parseDate (s : String) : Option Nat :=
  match splitDash s.data with
  | [ys, ms, ds] =>
      match digitsToNat ys, digitsToNat ms, digitsToNat ds with
      | some y, some m, some d => some (daysFromCivil y m d)
      | _, _, _ => none
  | _ => none

/-- The `slots_for_day` list chosen for one weekday index: Monday–Friday get
morning + afternoon, Saturday gets the Saturday grid, Sunday none. -/
def slotsForWeekday (wd : Nat) : List String :=
  if wd == 6 then []
  else if wd < 5 then generate_time_slots.1 ++ generate_time_slots.2.1
  else generate_time_slots.2.2

/-- All (date string, time string) pairs the two nested loops of
`create_schedule_bulk` visit, in visit order: week 0..weeks-1, day 0..6,
Sundays skipped. -/
def bulkPairs (startDay weeks : Nat) : List (String × String) :=
  (List.range weeks).flatMap (fun week =>
    (List.range 7).flatMap (fun day =>
      let z := startDay + week * 7 + day
      (slotsForWeekday (weekdayOf z)).map (fun t => (dateStrOf z, t))))

/-- The body of the innermost loop of `create_schedule_bulk`: look the
(date, time) pair up, and insert a fresh available slot when absent,
counting it. -/
def seedOne (acc : Nat × DB) (p : String × String) : Nat × DB :=
  match acc.2.slots.find? (fun s => s.date == p.1 && s.time == p.2) with
  | some _ => acc
  | none =>
      (acc.1 + 1,
       { acc.2 with
         slots := acc.2.slots ++
           [{ id := acc.2.nextId, date := p.1, time := p.2,
              type := "appointment", is_available := true }],
         nextId := acc.2.nextId + 1 })

/-- `POST /api/schedule/bulk-create` (`create_schedule_bulk`): parse the
start date, then walk every generated (date, time) pair, creating the
missing slots; returns `slots_created` with the final state, or the 500
error when the date does not parse. -/
def create_schedule_bulk (db : DB) (start_date : String) (weeks : Nat) :
    Except String (Nat × DB) :=
  match parseDate start_date with
  | none => .error "Error creating bulk schedule"
  | some startDay => .ok ((bulkPairs startDay weeks).foldl seedOne (0, db))

/-! ### List endpoints -/

/-- `GET /api/available-slots?date=` (`get_available_slots`): the available
slots, optionally filtered by date, sorted by time ascending, truncated by
`to_list(length=100)`. -/
def get_available_slots (db : DB) (date : Option String) : List Slot :=
  (((db.slots.filter (fun s => s.is_available)).filter
      (fun s => match date with | none => true | some d => s.date == d)).mergeSort
    (fun a b => a.time ≤ b.time)).take 100

/-- `GET /api/appointments?date=` (`get_appointments`): all appointments,
optionally filtered by date, sorted by time ascending, truncated by
`to_list(length=100)`. -/
def get_appointments (db : DB) (date : Option String) : List Appointment :=
  ((db.appts.filter
      (fun a => match date with | none => true | some d => a.date == d)).mergeSort
    (fun a b => a.time ≤ b.time)).take 100

/-! ### Concrete states used to exercise the theorems -/

/-- A booked (unavailable) slot. -/
def exSlotBooked : Slot :=
  { id := 0, date := "2024-01-01", time := "08:00:00",
    type := "appointment", is_available := false }

/-- An open (available) slot. -/
def exSlotOpen : Slot :=
  { id := 0, date := "2024-01-01", time := "08:00:00",
    type := "appointment", is_available := true }

/-- The confirmed appointment holding `exSlotBooked`. -/
def exApptConfirmed : Appointment :=
  { id := 1, slot_id := 0, client_name := "alice", whatsapp := "111",
    notes := none, date := "2024-01-01", time := "08:00:00",
    status := "confirmed" }

/-- A cancelled appointment that used to hold slot 0. -/
def exApptCancelled : Appointment :=
  { id := 1, slot_id := 0, client_name := "alice", whatsapp := "111",
    notes := none, date := "2024-01-01", time := "08:00:00",
    status := "cancelled" }

/-- A second, confirmed appointment that re-booked slot 0. -/
def exApptRebooked : Appointment :=
  { id := 2, slot_id := 0, client_name := "bob", whatsapp := "222",
    notes := none, date := "2024-01-01", time := "08:00:00",
    status := "confirmed" }

/-- One booked slot held by one confirmed appointment. -/
def exDBBooked : DB :=
  { slots := [exSlotBooked], appts := [exApptConfirmed], nextId := 2 }

/-- One open slot, no appointments. -/
def exDBOpen : DB :=
  { slots := [exSlotOpen], appts := [], nextId := 1 }

/-- Slot 0 re-booked by a second appointment after the first was
cancelled. -/
def exDBRebooked : DB :=
  { slots := [exSlotBooked], appts := [exApptCancelled, exApptRebooked],
    nextId := 3 }

instance {ε α : Type} [DecidableEq ε] [DecidableEq α] :
    DecidableEq (Except ε α) := fun a b =>
  match a, b with
  | .error x, .error y =>
      if h : x = y then .isTrue (by rw [h])
      else .isFalse (fun hc => h (Except.error.inj hc))
  | .error _, .ok _ => .isFalse (fun hc => Except.noConfusion hc)
  | .ok _, .error _ => .isFalse (fun hc => Except.noConfusion hc)
  | .ok x, .ok y =>
      if h : x = y then .isTrue (by rw [h])
      else .isFalse (fun hc => h (Except.ok.inj hc))

/-- The result of seeding one week from Monday 2024-01-01 on the empty
store. -/
def bulk1 : Nat × DB :=
  match create_schedule_bulk emptyDB "2024-01-01" 1 with
  | .ok r => r
  | .error _ => (0, emptyDB)

/-! ### The availability invariant and the operation language -/

/-- No appointment in status `"confirmed"` references the slot id `sid`. -/
def slotFree (appts : List Appointment) (sid : Nat) : Prop :=
  ∀ a ∈ appts, a.slot_id = sid → a.status ≠ "confirmed"

/-- The §3 core invariant: a slot is available iff no confirmed appointment
references it. -/
def availInv (db : DB) : Prop :=
  ∀ s ∈ db.slots, s.is_available = true ↔ slotFree db.appts s.id

instance (appts : List Appointment) (sid : Nat) : Decidable (slotFree appts sid) := by
  unfold slotFree; infer_instance

instance (db : DB) : Decidable (availInv db) := by
  unfold availInv; infer_instance

/-- One Booking Coordinator call, with its request payload. -/
inductive Op where
  | createSlot (date time type : String)
  | bookSlot (slot_id : Nat) (client_name whatsapp : String)
      (notes : Option String) (date time : String)
  | cancel (appointment_id : Nat)
  | deleteSlot (slot_id : Nat)
  | bulkSeed (start_date : String) (weeks : Nat)
  deriving DecidableEq, Repr

/-- The state transition of one sequential call; error responses leave the
state unchanged (each handler raises before writing). -/
def applyOp (db : DB) : Op → DB
  | .createSlot d t ty => (create_available_slot db d t ty).2
  | .bookSlot sid n w nt d t => (create_appointment db sid n w nt d t).2
  | .cancel aid => (cancel_appointment db aid).2
  | .deleteSlot sid => (delete_available_slot db sid).2
  | .bulkSeed s w =>
      match create_schedule_bulk db s w with
      | .ok r => r.2
      | .error _ => db

/-- Run a sequence of calls from the empty database. -/
def run (ops : List Op) : DB := ops.foldl applyOp emptyDB

/-- The appointment ids targeted by the `cancel` calls of a sequence. -/
def cancelIds : List Op → List Nat
  | [] => []
  | .cancel aid :: ops => aid :: cancelIds ops
  | _ :: ops => cancelIds ops

/-- The inductive strengthening of `availInv` that the operation proofs
carry, relative to the set `C` of appointment ids already cancelled. -/
structure Inv (db : DB) (C : List Nat) : Prop where
  avail : availInv db
  statuses : ∀ a ∈ db.appts, a.status = "confirmed" ∨ a.status = "cancelled"
  apptIdLt : ∀ a ∈ db.appts, a.id < db.nextId
  slotIdLt : ∀ s ∈ db.slots, s.id < db.nextId
  refLt : ∀ a ∈ db.appts, a.slot_id < db.nextId
  apptIdsNodup : db.appts.Pairwise (fun a b => a.id ≠ b.id)
  slotIdsNodup : db.slots.Pairwise (fun a b => a.id ≠ b.id)
  activeUnique : db.appts.Pairwise (fun a b =>
    a.status ≠ "cancelled" → b.status ≠ "cancelled" → a.slot_id ≠ b.slot_id)
  cancelledIn : ∀ a ∈ db.appts, a.status = "cancelled" → a.id ∈ C

/-! ### Interleaved booking: micro-step model of `create_appointment`

`create_appointment` is an `async` handler whose four database operations
(steps a–d) are separated by `await` suspension points, so two in-flight
requests may interleave at those points.  Each micro step is a partial state
transformer; a failed check aborts the request. -/

/-- The four awaited database operations of one `create_appointment` call,
in program order: check the slot, check the ledger, insert the appointment,
flip the slot's availability. -/
def bookMicroSteps (slot_id : Nat) (a : Appointment) : List (DB → Option DB) :=
  [fun db => if bookCheckSlot db slot_id then some db else none,
   fun db => if bookCheckLedger db slot_id then some db else none,
   fun db => some (bookInsertAppt db a),
   fun db => some (bookFlipSlot db slot_id)]

/-- Run a sequence of micro steps; `none` once any check has failed. -/
def runTrace (steps : List (DB → Option DB)) (db : DB) : Option DB :=
  steps.foldl (fun acc step => acc.bind step) (some db)

/-- The racy schedule of two concurrent `create_appointment` calls on the
same slot: both calls pass their two checks (steps a–b) before either
performs its two writes (steps c–d). -/
def interleavedDoubleBook (slot_id : Nat) (a1 a2 : Appointment) :
    List (DB → Option DB) :=
  (bookMicroSteps slot_id a1).take 2 ++ (bookMicroSteps slot_id a2).take 2 ++
  (bookMicroSteps slot_id a1).drop 2 ++ (bookMicroSteps slot_id a2).drop 2

/-! ### Lemmas about `updateFirst` -/

theorem updateFirst_cons {p : α → Bool} {f : α → α} {x : α} {xs : List α} :
    updateFirst p f (x :: xs) =
      if p x then f x :: xs else x :: updateFirst p f xs := rfl

theorem updateFirst_of_forall_false {p : α → Bool} {f : α → α} {l : List α}
    (h : ∀ x ∈ l, p x = false) : updateFirst p f l = l := by
  induction l with
  | nil => rfl
  | cons x xs ih =>
      rw [updateFirst_cons, if_neg (by simp [h x (by simp)])]
      rw [ih (fun y hy => h y (by simp [hy]))]

theorem mem_updateFirst {p : α → Bool} {f : α → α} {l : List α} {y : α}
    (h : y ∈ updateFirst p f l) : y ∈ l ∨ ∃ z ∈ l, p z = true ∧ y = f z := by
  induction l with
  | nil => simp [updateFirst] at h
  | cons x xs ih =>
      by_cases hx : p x
      · rw [updateFirst_cons, if_pos hx] at h
        rcases List.mem_cons.1 h with h | h
        · exact .inr ⟨x, by simp, hx, h⟩
        · exact .inl (by simp [h])
      · rw [updateFirst_cons, if_neg hx] at h
        rcases List.mem_cons.1 h with h | h
        · exact .inl (by simp [h])
        · rcases ih h with h' | ⟨z, hz, hpz, hy⟩
          · exact .inl (by simp [h'])
          · exact .inr ⟨z, by simp [hz], hpz, hy⟩

theorem pairwise_updateFirst {R : α → α → Prop} {p : α → Bool} {f : α → α}
    {l : List α} (hl : l.Pairwise R)
    (h1 : ∀ x y, R x y → R x (f y)) (h2 : ∀ x y, R x y → R (f x) y) :
    (updateFirst p f l).Pairwise R := by
  induction l with
  | nil => exact .nil
  | cons x xs ih =>
      rcases List.pairwise_cons.1 hl with ⟨hx, hxs⟩
      by_cases hpx : p x
      · rw [updateFirst_cons, if_pos hpx]
        exact List.pairwise_cons.2 ⟨fun y hy => h2 x y (hx y hy), hxs⟩
      · rw [updateFirst_cons, if_neg hpx]
        refine List.pairwise_cons.2 ⟨?_, ih hxs⟩
        intro y hy
        rcases mem_updateFirst hy with h | ⟨z, hz, _, rfl⟩
        · exact hx y h
        · exact h1 x z (hx z hz)

theorem updateFirst_find? {p : α → Bool} (f : α → α) {l : List α} {a : α}
    (h : l.find? p = some a) :
    ∃ l₁ l₂, l = l₁ ++ a :: l₂ ∧ (∀ x ∈ l₁, p x = false) ∧
      updateFirst p f l = l₁ ++ f a :: l₂ := by
  induction l with
  | nil => simp at h
  | cons x xs ih =>
      by_cases hx : p x
      · have hax : a = x := by
          rw [List.find?_cons_of_pos _ hx] at h
          exact (Option.some.inj h).symm
        subst hax
        exact ⟨[], xs, rfl, by simp, by rw [updateFirst_cons, if_pos hx]; rfl⟩
      · rw [List.find?_cons_of_neg _ hx] at h
        obtain ⟨l₁, l₂, hl, hfalse, hupd⟩ := ih h
        refine ⟨x :: l₁, l₂, by simp [hl], ?_, ?_⟩
        · intro y hy
          rcases List.mem_cons.1 hy with rfl | hy
          · exact Bool.of_not_eq_true hx
          · exact hfalse y hy
        · rw [updateFirst_cons, if_neg hx, hupd, List.cons_append]

theorem find?_eq_of_pairwise_ne {l : List α} {key : α → Nat} {k : Nat}
    (hN : l.Pairwise (fun x y => key x ≠ key y)) {a : α} (ha : a ∈ l)
    (hk : key a = k) : l.find? (fun x => key x == k) = some a := by
  induction l with
  | nil => cases ha
  | cons x xs ih =>
      rcases List.pairwise_cons.1 hN with ⟨hx, hxs⟩
      rcases List.mem_cons.1 ha with rfl | ha
      · exact List.find?_cons_of_pos _ (by simp [hk])
      · have hxk : key x ≠ k := hk ▸ hx a ha
        rw [List.find?_cons_of_neg _ (by simp [hxk])]
        exact ih hxs ha

theorem find?_append_of_forall_false {p : α → Bool} {l₁ l₂ : List α}
    (h : ∀ x ∈ l₁, p x = false) : (l₁ ++ l₂).find? p = l₂.find? p := by
  induction l₁ with
  | nil => rfl
  | cons x xs ih =>
      rw [List.cons_append, List.find?_cons_of_neg _ (by simp [h x (by simp)])]
      exact ih (fun y hy => h y (by simp [hy]))

/-! ### Transfer lemmas for `slotFree` -/

theorem slotFree_append_singleton {appts : List Appointment} {a : Appointment}
    {sid : Nat} (hne : a.slot_id ≠ sid) :
    slotFree (appts ++ [a]) sid ↔ slotFree appts sid := by
  constructor
  · intro hf b hb hbs
    exact hf b (by simp [hb]) hbs
  · intro hf b hb hbs
    rcases List.mem_append.1 hb with hb | hb
    · exact hf b hb hbs
    · rcases List.mem_singleton.1 hb with rfl
      exact absurd hbs hne

theorem slotFree_update_middle {A₁ A₂ : List Appointment} {a₀ b₀ : Appointment}
    {sid : Nat} (hslot : b₀.slot_id = a₀.slot_id) (hne : a₀.slot_id ≠ sid) :
    slotFree (A₁ ++ b₀ :: A₂) sid ↔ slotFree (A₁ ++ a₀ :: A₂) sid := by
  constructor
  · intro hf b hb hbs
    rcases List.mem_append.1 hb with hb | hb
    · exact hf b (by simp [hb]) hbs
    · rcases List.mem_cons.1 hb with rfl | hb
      · exact absurd hbs hne
      · exact hf b (by simp [hb]) hbs
  · intro hf b hb hbs
    rcases List.mem_append.1 hb with hb | hb
    · exact hf b (by simp [hb]) hbs
    · rcases List.mem_cons.1 hb with rfl | hb
      · exact absurd (hslot ▸ hbs) hne
      · exact hf b (by simp [hb]) hbs

/-! ### Preservation of the strengthened invariant -/

theorem Inv.mono {db : DB} {C C' : List Nat} (h : Inv db C)
    (hsub : ∀ x ∈ C, x ∈ C') : Inv db C' :=
  { h with cancelledIn := fun a ha hc => hsub a.id (h.cancelledIn a ha hc) }

theorem inv_empty (C : List Nat) : Inv emptyDB C := by
  refine { avail := ?_, statuses := ?_, apptIdLt := ?_, slotIdLt := ?_,
           refLt := ?_, apptIdsNodup := ?_, slotIdsNodup := ?_,
           activeUnique := ?_, cancelledIn := ?_ } <;> simp [emptyDB, availInv]

theorem inv_insert_slot {db : DB} {C : List Nat} (h : Inv db C)
    (d t ty : String) :
    Inv { db with
          slots := db.slots ++
            [{ id := db.nextId, date := d, time := t, type := ty,
               is_available := true }],
          nextId := db.nextId + 1 } C := by
  obtain ⟨havail, hst, haLt, hsLt, hrLt, haN, hsN, hau, hc⟩ := h
  refine { avail := ?_, statuses := hst, apptIdLt := ?_, slotIdLt := ?_,
           refLt := ?_, apptIdsNodup := haN, slotIdsNodup := ?_,
           activeUnique := hau, cancelledIn := hc }
  · intro s hs
    rcases List.mem_append.1 hs with hs | hs
    · exact havail s hs
    · rcases List.mem_singleton.1 hs with rfl
      exact iff_of_true rfl
        (fun a ha hsid => absurd hsid (Nat.ne_of_lt (hrLt a ha)))
  · exact fun a ha => Nat.lt_succ_of_lt (haLt a ha)
  · intro s hs
    rcases List.mem_append.1 hs with hs | hs
    · exact Nat.lt_succ_of_lt (hsLt s hs)
    · rcases List.mem_singleton.1 hs with rfl
      exact Nat.lt_succ_self _
  · exact fun a ha => Nat.lt_succ_of_lt (hrLt a ha)
  · refine List.pairwise_append.2 ⟨hsN, List.pairwise_singleton _ _, ?_⟩
    intro a ha b hb
    rcases List.mem_singleton.1 hb with rfl
    exact Nat.ne_of_lt (hsLt a ha)

theorem inv_create_available_slot {db : DB} {C : List Nat} (h : Inv db C)
    (d t ty : String) : Inv (create_available_slot db d t ty).2 C := by
  unfold create_available_slot
  cases hf : db.slots.find? (fun s => s.date == d && s.time == t) with
  | some s => exact h
  | none => exact inv_insert_slot h d t ty

theorem inv_seedOne {acc : Nat × DB} {C : List Nat} (h : Inv acc.2 C)
    (p : String × String) : Inv (seedOne acc p).2 C := by
  unfold seedOne
  cases acc.2.slots.find? (fun s => s.date == p.1 && s.time == p.2) with
  | some s => exact h
  | none => exact inv_insert_slot h p.1 p.2 "appointment"

theorem inv_seed_foldl {C : List Nat} :
    ∀ (l : List (String × String)) (acc : Nat × DB), Inv acc.2 C →
      Inv (l.foldl seedOne acc).2 C := by
  intro l
  induction l with
  | nil => exact fun acc h => h
  | cons p l ih => exact fun acc h => ih (seedOne acc p) (inv_seedOne h p)

theorem inv_create_appointment {db : DB} {C : List Nat} (h : Inv db C)
    (sid : Nat) (n w : String) (nt : Option String) (d t : String) :
    Inv (create_appointment db sid n w nt d t).2 C := by
  unfold create_appointment
  by_cases hslot : bookCheckSlot db sid
  swap
  · rw [if_neg hslot]; exact h
  rw [if_pos hslot]
  by_cases hled : bookCheckLedger db sid
  swap
  · rw [if_neg hled]; exact h
  rw [if_pos hled]
  show Inv { slots := updateFirst (fun s => s.id == sid)
               (fun s => { s with is_available := false }) db.slots,
             appts := db.appts ++ [newAppointment db sid n w nt d t],
             nextId := db.nextId + 1 } C
  obtain ⟨havail, hst, haLt, hsLt, hrLt, haN, hsN, hau, hc⟩ := h
  unfold bookCheckSlot at hslot
  obtain ⟨s₀, hs₀⟩ := Option.isSome_iff_exists.1 hslot
  have hs₀p := List.find?_some hs₀
  have hs₀mem := List.mem_of_find?_eq_some hs₀
  simp only [Bool.and_eq_true, beq_iff_eq] at hs₀p
  obtain ⟨hs₀id, hs₀av⟩ := hs₀p
  unfold bookCheckLedger at hled
  rw [Option.isNone_iff_eq_none] at hled
  have hnb : ∀ a ∈ db.appts, a.slot_id = sid → a.status = "cancelled" := by
    intro a ha hsid
    have hna := List.find?_eq_none.1 hled a ha
    simp only [Bool.and_eq_true, beq_iff_eq, bne_iff_ne, ne_eq, not_and,
      not_not] at hna
    exact hna hsid
  have hfind : db.slots.find? (fun s => s.id == sid) = some s₀ :=
    find?_eq_of_pairwise_ne hsN hs₀mem hs₀id
  obtain ⟨S₁, S₂, hsplit, hpref, hupd⟩ :=
    updateFirst_find? (fun s => { s with is_available := false }) hfind
  have hmem₁ : ∀ x ∈ S₁, x ∈ db.slots := fun x hx => by rw [hsplit]; simp [hx]
  have hmem₂ : ∀ x ∈ S₂, x ∈ db.slots := fun x hx => by rw [hsplit]; simp [hx]
  have hsNsplit : (S₁ ++ s₀ :: S₂).Pairwise (fun a b => a.id ≠ b.id) := by
    rw [← hsplit]; exact hsN
  have hS₁ : ∀ x ∈ S₁, x.id ≠ s₀.id := by
    intro x hx
    exact (List.pairwise_append.1 hsNsplit).2.2 x hx s₀ (by simp)
  have hS₂ : ∀ x ∈ S₂, s₀.id ≠ x.id := by
    intro x hx
    exact (List.pairwise_cons.1 (List.pairwise_append.1 hsNsplit).2.1).1 x hx
  rw [hupd]
  refine { avail := ?_, statuses := ?_, apptIdLt := ?_, slotIdLt := ?_,
           refLt := ?_, apptIdsNodup := ?_, slotIdsNodup := ?_,
           activeUnique := ?_, cancelledIn := ?_ }
  · intro s' hs'
    rcases List.mem_append.1 hs' with hs' | hs'
    · have hne : (newAppointment db sid n w nt d t).slot_id ≠ s'.id := by
        show sid ≠ s'.id
        rw [← hs₀id]
        exact (hS₁ s' hs').symm
      rw [slotFree_append_singleton hne]
      exact havail s' (hmem₁ s' hs')
    · rcases List.mem_cons.1 hs' with rfl | hs'
      · refine iff_of_false (by simp) ?_
        intro hfree
        exact hfree (newAppointment db sid n w nt d t) (by simp)
          (show sid = s₀.id from hs₀id.symm) rfl
      · have hne : (newAppointment db sid n w nt d t).slot_id ≠ s'.id := by
          show sid ≠ s'.id
          rw [← hs₀id]
          exact hS₂ s' hs'
        rw [slotFree_append_singleton hne]
        exact havail s' (hmem₂ s' hs')
  · intro a ha
    rcases List.mem_append.1 ha with ha | ha
    · exact hst a ha
    · rcases List.mem_singleton.1 ha with rfl
      exact .inl rfl
  · intro a ha
    rcases List.mem_append.1 ha with ha | ha
    · exact Nat.lt_succ_of_lt (haLt a ha)
    · rcases List.mem_singleton.1 ha with rfl
      exact Nat.lt_succ_self _
  · intro s' hs'
    rcases List.mem_append.1 hs' with hs' | hs'
    · exact Nat.lt_succ_of_lt (hsLt s' (hmem₁ s' hs'))
    · rcases List.mem_cons.1 hs' with rfl | hs'
      · exact Nat.lt_succ_of_lt (hsLt s₀ hs₀mem)
      · exact Nat.lt_succ_of_lt (hsLt s' (hmem₂ s' hs'))
  · intro a ha
    rcases List.mem_append.1 ha with ha | ha
    · exact Nat.lt_succ_of_lt (hrLt a ha)
    · rcases List.mem_singleton.1 ha with rfl
      show sid < db.nextId + 1
      rw [← hs₀id]
      exact Nat.lt_succ_of_lt (hsLt s₀ hs₀mem)
  · refine List.pairwise_append.2 ⟨haN, List.pairwise_singleton _ _, ?_⟩
    intro a ha b hb
    rcases List.mem_singleton.1 hb with rfl
    exact Nat.ne_of_lt (haLt a ha)
  · have hpw := pairwise_updateFirst (p := fun s => s.id == sid)
      (f := fun s => { s with is_available := false }) hsN
      (fun x y hxy => hxy) (fun x y hxy => hxy)
    rw [hupd] at hpw
    exact hpw
  · refine List.pairwise_append.2 ⟨hau, List.pairwise_singleton _ _, ?_⟩
    intro a ha b hb
    rcases List.mem_singleton.1 hb with rfl
    intro hanc _ heq
    exact hanc (hnb a ha heq)
  · intro a ha hcanc
    rcases List.mem_append.1 ha with ha | ha
    · exact hc a ha hcanc
    · rcases List.mem_singleton.1 ha with rfl
      simp [newAppointment] at hcanc

theorem inv_cancel_appointment {db : DB} {C : List Nat} (h : Inv db C)
    {aid : Nat} (hnotin : aid ∉ C) :
    Inv (cancel_appointment db aid).2 (aid :: C) := by
  unfold cancel_appointment
  cases hf : db.appts.find? (fun a => a.id == aid) with
  | none => exact h.mono (fun x hx => by simp [hx])
  | some appt =>
      show Inv { slots := updateFirst (fun s => s.id == appt.slot_id)
                   (fun s => { s with is_available := true }) db.slots,
                 appts := updateFirst (fun a => a.id == aid)
                   (fun a => { a with status := "cancelled" }) db.appts,
                 nextId := db.nextId } (aid :: C)
      obtain ⟨havail, hst, haLt, hsLt, hrLt, haN, hsN, hau, hc⟩ := h
      have hamem := List.mem_of_find?_eq_some hf
      have haid : appt.id = aid := by
        have := List.find?_some hf
        simpa using this
      have hconf : appt.status = "confirmed" := by
        rcases hst appt hamem with hsc | hsc
        · exact hsc
        · exact absurd (haid ▸ hc appt hamem hsc) hnotin
      obtain ⟨A₁, A₂, hAsplit, hApref, hAupd⟩ :=
        updateFirst_find? (fun a => { a with status := "cancelled" }) hf
      have hauSplit : (A₁ ++ appt :: A₂).Pairwise (fun a b =>
          a.status ≠ "cancelled" → b.status ≠ "cancelled" →
            a.slot_id ≠ b.slot_id) := by
        rw [← hAsplit]; exact hau
      have hncanc : appt.status ≠ "cancelled" := by
        rw [hconf]; decide
      have hfree0 : slotFree (updateFirst (fun a => a.id == aid)
          (fun a => { a with status := "cancelled" }) db.appts)
          appt.slot_id := by
        rw [hAupd]
        intro b hb hbs hbc
        have hbnc : b.status ≠ "cancelled" := by
          rw [hbc]; decide
        rcases List.mem_append.1 hb with hb | hb
        · exact (List.pairwise_append.1 hauSplit).2.2 b hb appt (by simp)
            hbnc hncanc hbs
        · rcases List.mem_cons.1 hb with rfl | hb
          · simp at hbc
          · exact (List.pairwise_cons.1
              (List.pairwise_append.1 hauSplit).2.1).1 b hb hncanc hbnc hbs.symm
      have hkey : ∀ x : Nat, appt.slot_id ≠ x →
          (slotFree (updateFirst (fun a => a.id == aid)
            (fun a => { a with status := "cancelled" }) db.appts) x ↔
           slotFree db.appts x) := by
        intro x hx
        rw [hAupd, hAsplit]
        exact slotFree_update_middle rfl hx
      refine { avail := ?_, statuses := ?_, apptIdLt := ?_, slotIdLt := ?_,
               refLt := ?_, apptIdsNodup := ?_, slotIdsNodup := ?_,
               activeUnique := ?_, cancelledIn := ?_ }
      · cases hfs : db.slots.find? (fun s => s.id == appt.slot_id) with
        | none =>
            have hnone : ∀ x ∈ db.slots, (fun s => s.id == appt.slot_id) x
                = false := by
              intro x hx
              exact Bool.of_not_eq_true (List.find?_eq_none.1 hfs x hx)
            rw [updateFirst_of_forall_false hnone]
            intro s' hs'
            have hne : appt.slot_id ≠ s'.id := by
              have := hnone s' hs'
              simp only [beq_eq_false_iff_ne, ne_eq] at this
              exact fun hx => this hx.symm
            rw [hkey s'.id hne]
            exact havail s' hs'
        | some s₀ =>
            have hs₀mem := List.mem_of_find?_eq_some hfs
            have hs₀id : s₀.id = appt.slot_id := by
              have := List.find?_some hfs
              simpa using this
            obtain ⟨S₁, S₂, hSsplit, hSpref, hSupd⟩ :=
              updateFirst_find? (fun s => { s with is_available := true }) hfs
            have hsNsplit : (S₁ ++ s₀ :: S₂).Pairwise (fun a b =>
                a.id ≠ b.id) := by
              rw [← hSsplit]; exact hsN
            rw [hSupd]
            intro s' hs'
            rcases List.mem_append.1 hs' with hs' | hs'
            · have hne : appt.slot_id ≠ s'.id := by
                rw [← hs₀id]
                exact ((List.pairwise_append.1 hsNsplit).2.2 s' hs' s₀
                  (by simp)).symm
              rw [hkey s'.id hne]
              exact havail s' (by rw [hSsplit]; simp [hs'])
            · rcases List.mem_cons.1 hs' with rfl | hs'
              · exact iff_of_true rfl (hs₀id ▸ hfree0)
              · have hne : appt.slot_id ≠ s'.id := by
                  rw [← hs₀id]
                  exact (List.pairwise_cons.1
                    (List.pairwise_append.1 hsNsplit).2.1).1 s' hs'
                rw [hkey s'.id hne]
                exact havail s' (by rw [hSsplit]; simp [hs'])
      · intro a ha
        rcases mem_updateFirst ha with ha | ⟨z, hz, _, rfl⟩
        · exact hst a ha
        · exact .inr rfl
      · intro a ha
        rcases mem_updateFirst ha with ha | ⟨z, hz, _, rfl⟩
        · exact haLt a ha
        · exact haLt z hz
      · intro s' hs'
        rcases mem_updateFirst hs' with hs' | ⟨z, hz, _, rfl⟩
        · exact hsLt s' hs'
        · exact hsLt z hz
      · intro a ha
        rcases mem_updateFirst ha with ha | ⟨z, hz, _, rfl⟩
        · exact hrLt a ha
        · exact hrLt z hz
      · exact pairwise_updateFirst haN (fun x y hxy => hxy) (fun x y hxy => hxy)
      · exact pairwise_updateFirst hsN (fun x y hxy => hxy) (fun x y hxy => hxy)
      · refine pairwise_updateFirst hau ?_ ?_
        · intro x y _
          intro _ h2
          exact absurd rfl h2
        · intro x y _
          intro h1 _
          exact absurd rfl h1
      · intro a ha hcanc
        rcases mem_updateFirst ha with ha | ⟨z, hz, hpz, rfl⟩
        · exact List.mem_cons_of_mem _ (hc a ha hcanc)
        · have : z.id = aid := by simpa using hpz
          simp [this]

theorem inv_create_schedule_bulk {db : DB} {C : List Nat} (h : Inv db C)
    (s : String) (w : Nat) :
    Inv (match create_schedule_bulk db s w with
         | .ok r => r.2
         | .error _ => db) C := by
  unfold create_schedule_bulk
  cases parseDate s with
  | none => exact h
  | some startDay => exact inv_seed_foldl _ _ h

theorem inv_delete_available_slot {db : DB} {C : List Nat} (h : Inv db C)
    (sid : Nat) : Inv (delete_available_slot db sid).2 C := by
  unfold delete_available_slot
  cases db.appts.find? (fun a => a.slot_id == sid && a.status != "cancelled") with
  | some a => exact h
  | none =>
      by_cases hfs : (db.slots.find? (fun s => s.id == sid)).isSome
      · rw [if_pos hfs]
        obtain ⟨havail, hst, haLt, hsLt, hrLt, haN, hsN, hau, hc⟩ := h
        have hsub : (db.slots.eraseP (fun s => s.id == sid)).Sublist db.slots :=
          List.eraseP_sublist _
        exact { avail := fun s hs => havail s (hsub.mem hs),
                statuses := hst, apptIdLt := haLt,
                slotIdLt := fun s hs => hsLt s (hsub.mem hs),
                refLt := hrLt, apptIdsNodup := haN,
                slotIdsNodup := hsN.sublist hsub,
                activeUnique := hau, cancelledIn := hc }
      · rw [if_neg hfs]
        exact h

theorem inv_run_aux : ∀ (ops : List Op) (db : DB) (C : List Nat), Inv db C →
    (cancelIds ops).Nodup → (∀ x ∈ cancelIds ops, x ∉ C) →
    ∃ C', Inv (ops.foldl applyOp db) C' := by
  intro ops
  induction ops with
  | nil => exact fun db C h _ _ => ⟨C, h⟩
  | cons op ops ih =>
      intro db C h hnd hdisj
      match op with
      | .createSlot d t ty =>
          exact ih _ C (inv_create_available_slot h d t ty) hnd hdisj
      | .bookSlot sid n w nt d t =>
          exact ih _ C (inv_create_appointment h sid n w nt d t) hnd hdisj
      | .deleteSlot sid =>
          exact ih _ C (inv_delete_available_slot h sid) hnd hdisj
      | .bulkSeed s w =>
          exact ih _ C (inv_create_schedule_bulk h s w) hnd hdisj
      | .cancel aid =>
          have hnd' : (aid :: cancelIds ops).Nodup := hnd
          have hnotin : aid ∉ C := hdisj aid (by simp [cancelIds])
          refine ih _ (aid :: C) (inv_cancel_appointment h hnotin) ?_ ?_
          · exact (List.nodup_cons.1 hnd').2
          · intro x hx
            simp only [List.mem_cons]
            rintro (rfl | hxC)
            · exact (List.nodup_cons.1 hnd').1 hx
            · exact hdisj x (by simp [cancelIds, hx]) hxC

/-! ### Claim C1: the availability invariant -/

/-- C1, counterexample: the claimed invariant — a slot is available iff no
confirmed appointment references it — does NOT hold after every operation
sequence from the empty state.  Cancelling the same appointment a second
time after its slot has been re-booked re-enables the slot while the second
booking is still confirmed. -/
theorem c1_availability_invariant_counterexample :
    ¬ availInv (run
      [.createSlot "2024-01-01" "08:00:00" "appointment",
       .bookSlot 0 "alice" "111" none "2024-01-01" "08:00:00",
       .cancel 1,
       .bookSlot 0 "bob" "222" none "2024-01-01" "08:00:00",
       .cancel 1]) := by decide

/-- C1, amended: after every sequence of Booking Coordinator operations
from the empty state in which no appointment id is targeted by more than
one CancelAppointment call, every slot is available iff no confirmed
appointment references it. -/
theorem c1_availability_invariant (ops : List Op)
    (hnd : (cancelIds ops).Nodup) : availInv (run ops) := by
  obtain ⟨C', hI⟩ := inv_run_aux ops emptyDB [] (inv_empty []) hnd (by simp)
  exact hI.avail

/-- Witness for C1: a sequence exercising create, book, cancel, re-book and
bulk seeding, with pairwise-distinct cancel targets, satisfies the
invariant. -/
theorem c1_availability_invariant_witness :
    (cancelIds
      [.createSlot "2024-01-01" "08:00:00" "appointment",
       .bookSlot 0 "alice" "111" none "2024-01-01" "08:00:00",
       .cancel 1,
       .bookSlot 0 "bob" "222" none "2024-01-01" "08:00:00"]).Nodup ∧
    availInv (run
      [.createSlot "2024-01-01" "08:00:00" "appointment",
       .bookSlot 0 "alice" "111" none "2024-01-01" "08:00:00",
       .cancel 1,
       .bookSlot 0 "bob" "222" none "2024-01-01" "08:00:00"]) :=
  ⟨by decide, c1_availability_invariant _ (by decide)⟩

/-! ### Claim C2: concurrent booking of the same slot -/

/-- C2, failing execution: two `create_appointment` calls for slot 0 whose
four awaited steps interleave as check/check/write/write both succeed and
leave TWO confirmed appointments for the one slot, violating the invariant.
The handler has no conditional update or lock closing the gap, so this
schedule is admissible. -/
theorem c2_concurrent_booking_race :
    (runTrace (interleavedDoubleBook 0
        { id := 1, slot_id := 0, client_name := "alice", whatsapp := "111",
          notes := none, date := "2024-01-01", time := "08:00:00",
          status := "confirmed" }
        { id := 2, slot_id := 0, client_name := "bob", whatsapp := "222",
          notes := none, date := "2024-01-01", time := "08:00:00",
          status := "confirmed" })
        { slots := [{ id := 0, date := "2024-01-01", time := "08:00:00",
                      type := "appointment", is_available := true }],
          appts := [], nextId := 3 }).isSome = true ∧
    (((runTrace (interleavedDoubleBook 0
        { id := 1, slot_id := 0, client_name := "alice", whatsapp := "111",
          notes := none, date := "2024-01-01", time := "08:00:00",
          status := "confirmed" }
        { id := 2, slot_id := 0, client_name := "bob", whatsapp := "222",
          notes := none, date := "2024-01-01", time := "08:00:00",
          status := "confirmed" })
        { slots := [{ id := 0, date := "2024-01-01", time := "08:00:00",
                      type := "appointment", is_available := true }],
          appts := [], nextId := 3 }).getD emptyDB).appts.filter
      (fun a => a.slot_id == 0 && a.status == "confirmed")).length = 2 := by
  decide

/-! ### Claim C3: cancel then re-book -/

/-- C3: when `A` is the only non-cancelled appointment of slot `s` and is
confirmed, cancelling `A` succeeds, a subsequent booking of `s` with fresh
client data succeeds, and afterwards the new appointment is the only
confirmed appointment referencing `s`, while `A`'s record is cancelled. -/
theorem c3_cancel_then_rebook {db : DB} {s : Slot} {A : Appointment}
    (hids : db.appts.Pairwise (fun a b => a.id ≠ b.id))
    (hsids : db.slots.Pairwise (fun a b => a.id ≠ b.id))
    (hs : s ∈ db.slots) (hA : A ∈ db.appts) (href : A.slot_id = s.id)
    (_hconf : A.status = "confirmed")
    (honly : ∀ b ∈ db.appts, b.slot_id = s.id → b.status ≠ "cancelled" → b = A)
    (n w : String) (nt : Option String) (d t : String) :
    (cancel_appointment db A.id).1 = .ok ∧
    ∃ appt,
      (create_appointment (cancel_appointment db A.id).2 s.id n w nt d t).1
        = .ok appt ∧
      appt ∈ (create_appointment (cancel_appointment db A.id).2
        s.id n w nt d t).2.appts ∧
      appt.slot_id = s.id ∧ appt.status = "confirmed" ∧
      (∀ b ∈ (create_appointment (cancel_appointment db A.id).2
          s.id n w nt d t).2.appts,
        b.slot_id = s.id → b.status = "confirmed" → b = appt) ∧
      ∃ A' ∈ (create_appointment (cancel_appointment db A.id).2
          s.id n w nt d t).2.appts,
        A'.id = A.id ∧ A'.status = "cancelled" := by
  have hcfind : db.appts.find? (fun a => a.id == A.id) = some A :=
    find?_eq_of_pairwise_ne hids hA rfl
  obtain ⟨A₁, A₂, hAsplit, hApref, hAupd⟩ :=
    updateFirst_find? (fun a => { a with status := "cancelled" }) hcfind
  have hsfind : db.slots.find? (fun x => x.id == A.slot_id) = some s :=
    find?_eq_of_pairwise_ne hsids hs href.symm
  obtain ⟨S₁, S₂, hSsplit, hSpref, hSupd⟩ :=
    updateFirst_find? (fun x => { x with is_available := true }) hsfind
  have hcancel : cancel_appointment db A.id =
      (.ok, { slots := S₁ ++ { s with is_available := true } :: S₂,
              appts := A₁ ++ { A with status := "cancelled" } :: A₂,
              nextId := db.nextId }) := by
    unfold cancel_appointment
    rw [hcfind]
    show ((CancelResult.ok,
      { slots := updateFirst (fun x => x.id == A.slot_id)
          (fun x => { x with is_available := true }) db.slots,
        appts := updateFirst (fun a => a.id == A.id)
          (fun a => { a with status := "cancelled" }) db.appts,
        nextId := db.nextId }) : CancelResult × DB) = _
    rw [hSupd, hAupd]
  have hS₁ne : ∀ x ∈ S₁, x.id ≠ s.id := by
    intro x hx
    have hpx := hSpref x hx
    rw [href] at hpx
    simpa using hpx
  have hA₁ne : ∀ x ∈ A₁, x.id ≠ A.id := by
    intro x hx
    simpa using hApref x hx
  have hAnotin₁ : A ∉ A₁ := fun hx => hA₁ne A hx rfl
  have hAnotin₂ : A ∉ A₂ := by
    intro hx
    have hsplitPW : (A₁ ++ A :: A₂).Pairwise (fun a b => a.id ≠ b.id) := by
      rw [← hAsplit]; exact hids
    exact (List.pairwise_cons.1
      (List.pairwise_append.1 hsplitPW).2.1).1 A hx rfl
  rw [hcancel]
  refine ⟨rfl, ?_⟩
  have hchk1 : bookCheckSlot
      { slots := S₁ ++ { s with is_available := true } :: S₂,
        appts := A₁ ++ { A with status := "cancelled" } :: A₂,
        nextId := db.nextId } s.id = true := by
    show (List.find? (fun x => x.id == s.id && x.is_available)
      (S₁ ++ { s with is_available := true } :: S₂)).isSome = true
    rw [find?_append_of_forall_false (fun x hx => by simp [hS₁ne x hx])]
    rw [List.find?_cons_of_pos _ (by simp)]
    rfl
  have hledg : (A₁ ++ { A with status := "cancelled" } :: A₂).find?
      (fun a => a.slot_id == s.id && a.status != "cancelled") = none := by
    apply List.find?_eq_none.2
    intro b hb
    rcases List.mem_append.1 hb with hb | hb
    · intro hpb
      simp only [Bool.and_eq_true, beq_iff_eq, bne_iff_ne, ne_eq] at hpb
      have hbA : b = A := honly b (by rw [hAsplit]; simp [hb]) hpb.1 hpb.2
      exact hAnotin₁ (hbA ▸ hb)
    · rcases List.mem_cons.1 hb with rfl | hb
      · simp
      · intro hpb
        simp only [Bool.and_eq_true, beq_iff_eq, bne_iff_ne, ne_eq] at hpb
        have hbA : b = A := honly b (by rw [hAsplit]; simp [hb]) hpb.1 hpb.2
        exact hAnotin₂ (hbA ▸ hb)
  have hchk2 : bookCheckLedger
      { slots := S₁ ++ { s with is_available := true } :: S₂,
        appts := A₁ ++ { A with status := "cancelled" } :: A₂,
        nextId := db.nextId } s.id = true := by
    show (List.find? (fun a => a.slot_id == s.id && a.status != "cancelled")
      (A₁ ++ { A with status := "cancelled" } :: A₂)).isNone = true
    rw [hledg]
    rfl
  have hbook : create_appointment
      { slots := S₁ ++ { s with is_available := true } :: S₂,
        appts := A₁ ++ { A with status := "cancelled" } :: A₂,
        nextId := db.nextId } s.id n w nt d t =
      (.ok (newAppointment
        { slots := S₁ ++ { s with is_available := true } :: S₂,
          appts := A₁ ++ { A with status := "cancelled" } :: A₂,
          nextId := db.nextId } s.id n w nt d t),
       bookFlipSlot (bookInsertAppt
        { slots := S₁ ++ { s with is_available := true } :: S₂,
          appts := A₁ ++ { A with status := "cancelled" } :: A₂,
          nextId := db.nextId }
        (newAppointment
          { slots := S₁ ++ { s with is_available := true } :: S₂,
            appts := A₁ ++ { A with status := "cancelled" } :: A₂,
            nextId := db.nextId } s.id n w nt d t)) s.id) := by
    unfold create_appointment
    rw [if_pos hchk1, if_pos hchk2]
  rw [hbook]
  refine ⟨newAppointment
      { slots := S₁ ++ { s with is_available := true } :: S₂,
        appts := A₁ ++ { A with status := "cancelled" } :: A₂,
        nextId := db.nextId } s.id n w nt d t, rfl, ?_, rfl, rfl, ?_, ?_⟩
  · show _ ∈ (A₁ ++ { A with status := "cancelled" } :: A₂) ++ [_]
    simp
  · intro b hb hbslot hbconf
    have hb' : b ∈ (A₁ ++ { A with status := "cancelled" } :: A₂) ++
        [newAppointment
          { slots := S₁ ++ { s with is_available := true } :: S₂,
            appts := A₁ ++ { A with status := "cancelled" } :: A₂,
            nextId := db.nextId } s.id n w nt d t] := hb
    rcases List.mem_append.1 hb' with hb'' | hb''
    · exfalso
      have hbnc : b.status ≠ "cancelled" := by
        rw [hbconf]; decide
      rcases List.mem_append.1 hb'' with hb₃ | hb₃
      · have hbA : b = A := honly b (by rw [hAsplit]; simp [hb₃]) hbslot hbnc
        exact hAnotin₁ (hbA ▸ hb₃)
      · rcases List.mem_cons.1 hb₃ with rfl | hb₃
        · simp at hbconf
        · have hbA : b = A := honly b (by rw [hAsplit]; simp [hb₃]) hbslot hbnc
          exact hAnotin₂ (hbA ▸ hb₃)
    · exact List.mem_singleton.1 hb''
  · refine ⟨{ A with status := "cancelled" }, ?_, rfl, rfl⟩
    show _ ∈ (A₁ ++ { A with status := "cancelled" } :: A₂) ++ [_]
    simp

/-- Witness for C3: cancelling the confirmed appointment of the booked
example state and re-booking the slot for a new client succeeds and leaves
exactly one confirmed appointment. -/
theorem c3_cancel_then_rebook_witness :
    exApptConfirmed ∈ exDBBooked.appts ∧
    ((cancel_appointment exDBBooked exApptConfirmed.id).1 = .ok ∧
      ∃ appt,
        (create_appointment (cancel_appointment exDBBooked exApptConfirmed.id).2
          exSlotBooked.id "bob" "222" none "2024-01-01" "08:00:00").1
            = .ok appt ∧
        appt ∈ (create_appointment
          (cancel_appointment exDBBooked exApptConfirmed.id).2
          exSlotBooked.id "bob" "222" none "2024-01-01" "08:00:00").2.appts ∧
        appt.slot_id = exSlotBooked.id ∧ appt.status = "confirmed" ∧
        (∀ b ∈ (create_appointment
            (cancel_appointment exDBBooked exApptConfirmed.id).2
            exSlotBooked.id "bob" "222" none "2024-01-01" "08:00:00").2.appts,
          b.slot_id = exSlotBooked.id → b.status = "confirmed" → b = appt) ∧
        ∃ A' ∈ (create_appointment
            (cancel_appointment exDBBooked exApptConfirmed.id).2
            exSlotBooked.id "bob" "222" none "2024-01-01" "08:00:00").2.appts,
          A'.id = exApptConfirmed.id ∧ A'.status = "cancelled") :=
  ⟨by decide,
   @c3_cancel_then_rebook exDBBooked exSlotBooked exApptConfirmed
     (by decide) (by decide) (by decide) (by decide) (by decide) (by decide)
     (by decide) "bob" "222" none "2024-01-01" "08:00:00"⟩

/-! ### Claim C4: booking an absent or unavailable slot -/

theorem eq_of_mem_pairwise_key {l : List α} {key : α → Nat}
    (hN : l.Pairwise (fun a b => key a ≠ key b)) {x y : α}
    (hx : x ∈ l) (hy : y ∈ l) (hk : key x = key y) : x = y := by
  induction l with
  | nil => cases hx
  | cons z zs ih =>
      rcases List.pairwise_cons.1 hN with ⟨hz, hzs⟩
      rcases List.mem_cons.1 hx with hxz | hx'
      · rcases List.mem_cons.1 hy with hyz | hy'
        · rw [hxz, hyz]
        · exfalso
          apply hz y hy'
          rw [← hxz]
          exact hk
      · rcases List.mem_cons.1 hy with hyz | hy'
        · exfalso
          apply hz x hx'
          rw [← hyz]
          exact hk.symm
        · exact ih hzs hx' hy'

/-- C4: when the requested slot id is absent from the store, or the slot
with that id is unavailable, `create_appointment` fails with the
"unavailable" error and returns the state unchanged: no appointment is
inserted and no availability flag is modified. -/
theorem c4_book_unavailable_slot {db : DB} {sid : Nat}
    (hsids : db.slots.Pairwise (fun a b => a.id ≠ b.id))
    (h : (∀ x ∈ db.slots, x.id ≠ sid) ∨
      (∃ x ∈ db.slots, x.id = sid ∧ x.is_available = false))
    (n w : String) (nt : Option String) (d t : String) :
    create_appointment db sid n w nt d t = (.slotUnavailable, db) := by
  have hchk : bookCheckSlot db sid = false := by
    unfold bookCheckSlot
    rw [List.find?_eq_none.2, Option.isSome_none]
    intro x hx hpx
    simp only [Bool.and_eq_true, beq_iff_eq] at hpx
    rcases h with h | ⟨x₀, hx₀, hx₀id, hx₀av⟩
    · exact h x hx hpx.1
    · have hxx₀ : x = x₀ :=
        eq_of_mem_pairwise_key hsids hx hx₀ (by rw [hpx.1, hx₀id])
      rw [hxx₀, hx₀av] at hpx
      exact absurd hpx.2 (by decide)
  unfold create_appointment
  rw [hchk]
  simp

/-- Witness for C4: booking the already-booked example slot fails and
leaves the state untouched. -/
theorem c4_book_unavailable_slot_witness :
    (∃ x ∈ exDBBooked.slots, x.id = 0 ∧ x.is_available = false) ∧
    create_appointment exDBBooked 0 "bob" "222" none "2024-01-01" "08:00:00"
      = (.slotUnavailable, exDBBooked) :=
  ⟨by decide,
   @c4_book_unavailable_slot exDBBooked 0 (by decide)
     (.inr (by decide)) "bob" "222" none "2024-01-01" "08:00:00"⟩

/-! ### Claim C7: slot deletion guarded by live bookings -/

theorem updateFirst_exists_of_mem {p : α → Bool} {f : α → α} {l : List α}
    {x : α} (hx : x ∈ l) :
    ∃ y ∈ updateFirst p f l, y = x ∨ y = f x := by
  induction l with
  | nil => cases hx
  | cons z zs ih =>
      by_cases hpz : p z
      · rw [updateFirst_cons, if_pos hpz]
        rcases List.mem_cons.1 hx with hxz | hx'
        · exact ⟨f z, by simp, .inr (by rw [hxz])⟩
        · exact ⟨x, by simp [hx'], .inl rfl⟩
      · rw [updateFirst_cons, if_neg hpz]
        rcases List.mem_cons.1 hx with hxz | hx'
        · exact ⟨z, by simp, .inl hxz.symm⟩
        · obtain ⟨y, hy, hcase⟩ := ih hx'
          exact ⟨y, by simp [hy], hcase⟩

/-- C7: `delete_available_slot` (i) fails with the conflict error and keeps
the state unchanged when a non-cancelled appointment references the slot,
(ii) removes the slot when it exists and no non-cancelled appointment
references it, (iii) fails with the not-found error when neither blocker
nor slot exists, and (iv) succeeds right after cancelling the only blocking
appointment. -/
theorem c7_delete_slot_guard {db : DB} {sid : Nat}
    (hsids : db.slots.Pairwise (fun a b => a.id ≠ b.id))
    (haids : db.appts.Pairwise (fun a b => a.id ≠ b.id)) :
    ((∃ a ∈ db.appts, a.slot_id = sid ∧ a.status ≠ "cancelled") →
      delete_available_slot db sid = (.conflict, db)) ∧
    ((∀ a ∈ db.appts, a.slot_id = sid → a.status = "cancelled") →
      (∃ x ∈ db.slots, x.id = sid) →
      (delete_available_slot db sid).1 = .ok ∧
      (∀ x ∈ (delete_available_slot db sid).2.slots, x.id ≠ sid) ∧
      (delete_available_slot db sid).2.slots.Sublist db.slots ∧
      (delete_available_slot db sid).2.appts = db.appts) ∧
    ((∀ a ∈ db.appts, a.slot_id = sid → a.status = "cancelled") →
      (∀ x ∈ db.slots, x.id ≠ sid) →
      delete_available_slot db sid = (.notFound, db)) ∧
    (∀ A ∈ db.appts, A.slot_id = sid →
      (∀ b ∈ db.appts, b.slot_id = sid → b.status ≠ "cancelled" → b = A) →
      (∃ x ∈ db.slots, x.id = sid) →
      (delete_available_slot (cancel_appointment db A.id).2 sid).1 = .ok) := by
  refine ⟨?_, ?_, ?_, ?_⟩
  · rintro ⟨a, ha, haslot, hanc⟩
    have hsome : (db.appts.find? (fun a =>
        a.slot_id == sid && a.status != "cancelled")).isSome := by
      apply List.find?_isSome.2
      exact ⟨a, ha, by simp [haslot, hanc]⟩
    obtain ⟨x, hx⟩ := Option.isSome_iff_exists.1 hsome
    unfold delete_available_slot
    rw [hx]
  · intro hall hex
    have hnone : db.appts.find? (fun a =>
        a.slot_id == sid && a.status != "cancelled") = none := by
      apply List.find?_eq_none.2
      intro a ha hpa
      simp only [Bool.and_eq_true, beq_iff_eq, bne_iff_ne, ne_eq] at hpa
      exact hpa.2 (hall a ha hpa.1)
    obtain ⟨x₀, hx₀, hx₀id⟩ := hex
    have hss : (db.slots.find? (fun s => s.id == sid)).isSome := by
      apply List.find?_isSome.2
      exact ⟨x₀, hx₀, by simp [hx₀id]⟩
    have hdel : delete_available_slot db sid =
        (.ok, { db with slots := db.slots.eraseP (fun s => s.id == sid) }) := by
      unfold delete_available_slot
      rw [hnone, if_pos hss]
    refine ⟨by rw [hdel], ?_, ?_, ?_⟩
    · rw [hdel]
      intro x hx
      obtain ⟨a, l₁, l₂, hl₁, hpa, hl, herase⟩ :=
        @List.exists_of_eraseP Slot (fun s => s.id == sid) db.slots x₀ hx₀
          (by simp [hx₀id])
      rw [herase] at hx
      have haid : a.id = sid := by simpa using hpa
      rcases List.mem_append.1 hx with hx | hx
      · have := hl₁ x hx
        simpa using this
      · have hpw : (l₁ ++ a :: l₂).Pairwise (fun a b => a.id ≠ b.id) := by
          rw [← hl]; exact hsids
        have := (List.pairwise_cons.1
          (List.pairwise_append.1 hpw).2.1).1 x hx
        rw [haid] at this
        exact fun hxe => this hxe.symm
    · rw [hdel]
      exact List.eraseP_sublist _
    · rw [hdel]
  · intro hall habs
    have hnone : db.appts.find? (fun a =>
        a.slot_id == sid && a.status != "cancelled") = none := by
      apply List.find?_eq_none.2
      intro a ha hpa
      simp only [Bool.and_eq_true, beq_iff_eq, bne_iff_ne, ne_eq] at hpa
      exact hpa.2 (hall a ha hpa.1)
    have hsnone : db.slots.find? (fun s => s.id == sid) = none := by
      apply List.find?_eq_none.2
      intro x hx
      exact fun hpx => habs x hx (by simpa using hpx)
    unfold delete_available_slot
    rw [hnone, hsnone]
    rfl
  · intro A hA hAslot honly hex
    have hcfind : db.appts.find? (fun a => a.id == A.id) = some A :=
      find?_eq_of_pairwise_ne haids hA rfl
    obtain ⟨A₁, A₂, hAsplit, hApref, hAupd⟩ :=
      updateFirst_find? (fun a => { a with status := "cancelled" }) hcfind
    have hcancel : (cancel_appointment db A.id).2 =
        { slots := updateFirst (fun x => x.id == A.slot_id)
            (fun x => { x with is_available := true }) db.slots,
          appts := A₁ ++ { A with status := "cancelled" } :: A₂,
          nextId := db.nextId } := by
      unfold cancel_appointment
      rw [hcfind]
      show (
        { slots := updateFirst (fun x => x.id == A.slot_id)
            (fun x => { x with is_available := true }) db.slots,
          appts := updateFirst (fun a => a.id == A.id)
            (fun a => { a with status := "cancelled" }) db.appts,
          nextId := db.nextId } : DB) = _
      rw [hAupd]
    have hA₁ne : ∀ x ∈ A₁, x.id ≠ A.id := by
      intro x hx
      simpa using hApref x hx
    have hAnotin₁ : A ∉ A₁ := fun hx => hA₁ne A hx rfl
    have hAnotin₂ : A ∉ A₂ := by
      intro hx
      have hsplitPW : (A₁ ++ A :: A₂).Pairwise (fun a b => a.id ≠ b.id) := by
        rw [← hAsplit]; exact haids
      exact (List.pairwise_cons.1
        (List.pairwise_append.1 hsplitPW).2.1).1 A hx rfl
    have hnone : (A₁ ++ { A with status := "cancelled" } :: A₂).find?
        (fun a => a.slot_id == sid && a.status != "cancelled") = none := by
      apply List.find?_eq_none.2
      intro b hb
      rcases List.mem_append.1 hb with hb | hb
      · intro hpb
        simp only [Bool.and_eq_true, beq_iff_eq, bne_iff_ne, ne_eq] at hpb
        have hbA : b = A := honly b (by rw [hAsplit]; simp [hb]) hpb.1 hpb.2
        exact hAnotin₁ (hbA ▸ hb)
      · rcases List.mem_cons.1 hb with rfl | hb
        · simp
        · intro hpb
          simp only [Bool.and_eq_true, beq_iff_eq, bne_iff_ne, ne_eq] at hpb
          have hbA : b = A := honly b (by rw [hAsplit]; simp [hb]) hpb.1 hpb.2
          exact hAnotin₂ (hbA ▸ hb)
    obtain ⟨x₀, hx₀, hx₀id⟩ := hex
    obtain ⟨y, hy, hycase⟩ := updateFirst_exists_of_mem
      (p := fun x => x.id == A.slot_id)
      (f := fun x => { x with is_available := true }) hx₀
    have hyid : y.id = sid := by
      rcases hycase with rfl | rfl
      · exact hx₀id
      · exact hx₀id
    have hss : ((updateFirst (fun x => x.id == A.slot_id)
        (fun x => { x with is_available := true }) db.slots).find?
        (fun s => s.id == sid)).isSome := by
      apply List.find?_isSome.2
      exact ⟨y, hy, by simp [hyid]⟩
    rw [hcancel]
    unfold delete_available_slot
    rw [hnone, if_pos hss]

/-- Witness for C7: deleting the booked example slot fails with the
conflict error, and succeeds right after its only appointment is
cancelled. -/
theorem c7_delete_slot_guard_witness :
    delete_available_slot exDBBooked 0 = (.conflict, exDBBooked) ∧
    (delete_available_slot (cancel_appointment exDBBooked 1).2 0).1
      = .ok := by
  constructor
  · exact (@c7_delete_slot_guard exDBBooked 0 (by decide) (by decide)).1
      ⟨exApptConfirmed, by decide, by decide, by decide⟩
  · exact (@c7_delete_slot_guard exDBBooked 0 (by decide) (by decide)).2.2.2
      exApptConfirmed (by decide) (by decide) (by decide)
      ⟨exSlotBooked, by decide, by decide⟩

/-! ### Claim C8: the appointment's stored date and time -/

/-- C8, counterexample: booking the open example slot (date 2024-01-01,
time 08:00:00) while supplying date 1999-12-31 and time 23:59:59 stores the
caller-supplied values in the created appointment, NOT a copy of the slot's
date and time. -/
theorem c8_slot_copy_counterexample :
    (create_appointment exDBOpen 0 "carol" "333" none "1999-12-31"
      "23:59:59").1 = .ok
        { id := 1, slot_id := 0, client_name := "carol", whatsapp := "333",
          notes := none, date := "1999-12-31", time := "23:59:59",
          status := "confirmed" } ∧
    (create_appointment exDBOpen 0 "carol" "333" none "1999-12-31"
      "23:59:59").2.appts.map (fun a => (a.date, a.time))
        = [("1999-12-31", "23:59:59")] ∧
    "1999-12-31" ≠ exSlotOpen.date ∧ "23:59:59" ≠ exSlotOpen.time := by
  decide

/-- C8, amended: for every successful booking, the created appointment's
stored date and time equal the caller-supplied date and time arguments —
the denormalized copy is taken from the request body, and equals the slot's
values only when the caller sends matching ones. -/
theorem c8_caller_supplied_datetime {db : DB} {sid : Nat} {n w : String}
    {nt : Option String} {d t : String} {appt : Appointment}
    (h : (create_appointment db sid n w nt d t).1 = .ok appt) :
    appt.date = d ∧ appt.time = t ∧ appt.slot_id = sid ∧
    appt.status = "confirmed" := by
  unfold create_appointment at h
  by_cases h1 : bookCheckSlot db sid
  · rw [if_pos h1] at h
    by_cases h2 : bookCheckLedger db sid
    · rw [if_pos h2] at h
      have hEq : newAppointment db sid n w nt d t = appt :=
        BookResult.ok.inj h
      rw [← hEq]
      exact ⟨rfl, rfl, rfl, rfl⟩
    · rw [if_neg h2] at h
      simp at h
  · rw [if_neg h1] at h
    simp at h

/-- Witness for C8 (amended): booking the open example slot with matching
caller-supplied fields produces an appointment carrying exactly those
fields. -/
theorem c8_caller_supplied_datetime_witness :
    (create_appointment exDBOpen 0 "carol" "333" none "2024-01-01"
      "08:00:00").1 = .ok
        { id := 1, slot_id := 0, client_name := "carol", whatsapp := "333",
          notes := none, date := "2024-01-01", time := "08:00:00",
          status := "confirmed" } ∧
    (({ id := 1, slot_id := 0, client_name := "carol", whatsapp := "333",
        notes := none, date := "2024-01-01", time := "08:00:00",
        status := "confirmed" } : Appointment).date = "2024-01-01" ∧
     ({ id := 1, slot_id := 0, client_name := "carol", whatsapp := "333",
        notes := none, date := "2024-01-01", time := "08:00:00",
        status := "confirmed" } : Appointment).time = "08:00:00" ∧
     ({ id := 1, slot_id := 0, client_name := "carol", whatsapp := "333",
        notes := none, date := "2024-01-01", time := "08:00:00",
        status := "confirmed" } : Appointment).slot_id = 0 ∧
     ({ id := 1, slot_id := 0, client_name := "carol", whatsapp := "333",
        notes := none, date := "2024-01-01", time := "08:00:00",
        status := "confirmed" } : Appointment).status = "confirmed") :=
  ⟨by decide,
   @c8_caller_supplied_datetime exDBOpen 0 "carol" "333" none "2024-01-01"
     "08:00:00"
     { id := 1, slot_id := 0, client_name := "carol", whatsapp := "333",
       notes := none, date := "2024-01-01", time := "08:00:00",
       status := "confirmed" } (by decide)⟩

/-! ### Claim C9: cancellation is unconditional -/

/-- C9: cancelling any appointment id present in the ledger succeeds
whatever the appointment's current status (including `"cancelled"`), marks
the record with that id cancelled, and unconditionally sets the referenced
slot's availability to true. -/
theorem c9_cancel_unconditional {db : DB} {aid : Nat} {A : Appointment}
    (haids : db.appts.Pairwise (fun a b => a.id ≠ b.id))
    (hsids : db.slots.Pairwise (fun a b => a.id ≠ b.id))
    (hA : A ∈ db.appts) (hid : A.id = aid) :
    (cancel_appointment db aid).1 = .ok ∧
    (∃ A' ∈ (cancel_appointment db aid).2.appts,
      A'.id = aid ∧ A'.status = "cancelled") ∧
    (∀ x ∈ (cancel_appointment db aid).2.slots, x.id = A.slot_id →
      x.is_available = true) := by
  have hcfind : db.appts.find? (fun a => a.id == aid) = some A :=
    find?_eq_of_pairwise_ne haids hA hid
  obtain ⟨A₁, A₂, hAsplit, hApref, hAupd⟩ :=
    updateFirst_find? (fun a => { a with status := "cancelled" }) hcfind
  have hcancel : cancel_appointment db aid =
      (.ok, { slots := updateFirst (fun x => x.id == A.slot_id)
                (fun x => { x with is_available := true }) db.slots,
              appts := A₁ ++ { A with status := "cancelled" } :: A₂,
              nextId := db.nextId }) := by
    unfold cancel_appointment
    rw [hcfind]
    show ((CancelResult.ok,
      { slots := updateFirst (fun x => x.id == A.slot_id)
          (fun x => { x with is_available := true }) db.slots,
        appts := updateFirst (fun a => a.id == aid)
          (fun a => { a with status := "cancelled" }) db.appts,
        nextId := db.nextId }) : CancelResult × DB) = _
    rw [hAupd]
  rw [hcancel]
  refine ⟨rfl, ⟨{ A with status := "cancelled" }, by simp, hid, rfl⟩, ?_⟩
  intro x hx hxid
  cases hfs : db.slots.find? (fun x => x.id == A.slot_id) with
  | none =>
      rw [updateFirst_of_forall_false (fun y hy =>
        Bool.of_not_eq_true (List.find?_eq_none.1 hfs y hy))] at hx
      exact absurd (by simp [hxid]) (List.find?_eq_none.1 hfs x hx)
  | some s₀ =>
      have hs₀id : s₀.id = A.slot_id := by
        have := List.find?_some hfs
        simpa using this
      obtain ⟨S₁, S₂, hSsplit, hSpref, hSupd⟩ :=
        updateFirst_find? (fun x => { x with is_available := true }) hfs
      rw [hSupd] at hx
      have hsNsplit : (S₁ ++ s₀ :: S₂).Pairwise (fun a b => a.id ≠ b.id) := by
        rw [← hSsplit]; exact hsids
      rcases List.mem_append.1 hx with hx | hx
      · have hpx := hSpref x hx
        rw [hxid] at hpx
        simp at hpx
      · rcases List.mem_cons.1 hx with rfl | hx
        · rfl
        · have := (List.pairwise_cons.1
            (List.pairwise_append.1 hsNsplit).2.1).1 x hx
          rw [hs₀id] at this
          exact absurd hxid (Ne.symm this)

/-- Witness for C9: in the re-booked example state, cancelling the already
cancelled appointment 1 succeeds and re-enables slot 0 even though the
confirmed appointment 2 still holds it. -/
theorem c9_cancel_unconditional_witness :
    exApptCancelled ∈ exDBRebooked.appts ∧
    ((cancel_appointment exDBRebooked 1).1 = .ok ∧
     (∃ A' ∈ (cancel_appointment exDBRebooked 1).2.appts,
        A'.id = 1 ∧ A'.status = "cancelled") ∧
     (∀ x ∈ (cancel_appointment exDBRebooked 1).2.slots,
        x.id = exApptCancelled.slot_id → x.is_available = true)) ∧
    (∃ b ∈ (cancel_appointment exDBRebooked 1).2.appts,
      b.slot_id = exApptCancelled.slot_id ∧ b.status = "confirmed") :=
  ⟨by decide,
   @c9_cancel_unconditional exDBRebooked 1 exApptCancelled
     (by decide) (by decide) (by decide) (by decide),
   by decide⟩

/-! ### Claim C10: the list endpoints return at most 100 records -/

/-- C10: both list endpoints return at most 100 records; precisely, each
returns `min 100 k` records where `k` is the number of matching documents,
so whenever more than 100 documents match, the records beyond the first 100
of the time-sorted sequence are omitted. -/
theorem c10_list_endpoints_truncate (db : DB) (date : Option String) :
    (get_available_slots db date).length ≤ 100 ∧
    (get_appointments db date).length ≤ 100 ∧
    (get_available_slots db date).length =
      min 100 (((db.slots.filter (fun s => s.is_available)).filter
        (fun s => match date with
                  | none => true
                  | some d => s.date == d)).length) ∧
    (get_appointments db date).length =
      min 100 ((db.appts.filter
        (fun a => match date with
                  | none => true
                  | some d => a.date == d)).length) := by
  unfold get_available_slots get_appointments
  rw [List.length_take, List.length_take, List.length_mergeSort,
    List.length_mergeSort]
  exact ⟨Nat.min_le_left _ _, Nat.min_le_left _ _, rfl, rfl⟩

/-! ### Claim C5: bulk seeding is idempotent -/

theorem seedOne_slots_mono {acc : Nat × DB} {p : String × String} {x : Slot}
    (hx : x ∈ acc.2.slots) : x ∈ (seedOne acc p).2.slots := by
  unfold seedOne
  cases acc.2.slots.find? (fun s => s.date == p.1 && s.time == p.2) with
  | some s => exact hx
  | none => simp [hx]

theorem foldl_seedOne_slots_mono {x : Slot} :
    ∀ (l : List (String × String)) (acc : Nat × DB), x ∈ acc.2.slots →
      x ∈ (l.foldl seedOne acc).2.slots := by
  intro l
  induction l with
  | nil => exact fun acc h => h
  | cons p l ih => exact fun acc h => ih _ (seedOne_slots_mono h)

theorem seedOne_establishes {acc : Nat × DB} {p : String × String} :
    ∃ s ∈ (seedOne acc p).2.slots, s.date = p.1 ∧ s.time = p.2 := by
  unfold seedOne
  cases hf : acc.2.slots.find? (fun s => s.date == p.1 && s.time == p.2) with
  | some s =>
      have hmem := List.mem_of_find?_eq_some hf
      have hp := List.find?_some hf
      simp only [Bool.and_eq_true, beq_iff_eq] at hp
      exact ⟨s, hmem, hp.1, hp.2⟩
  | none =>
      refine ⟨{ id := acc.2.nextId, date := p.1, time := p.2,
                type := "appointment", is_available := true }, ?_, rfl, rfl⟩
      simp

theorem foldl_seedOne_establishes :
    ∀ (l : List (String × String)) (acc : Nat × DB), ∀ p ∈ l,
      ∃ s ∈ (l.foldl seedOne acc).2.slots, s.date = p.1 ∧ s.time = p.2 := by
  intro l
  induction l with
  | nil =>
      intro acc p hp
      cases hp
  | cons q l ih =>
      intro acc p hp
      rcases List.mem_cons.1 hp with rfl | hp
      · obtain ⟨s, hs, h1, h2⟩ := @seedOne_establishes acc p
        exact ⟨s, foldl_seedOne_slots_mono l _ hs, h1, h2⟩
      · exact ih _ p hp

theorem foldl_seedOne_noop :
    ∀ (l : List (String × String)) (acc : Nat × DB),
      (∀ p ∈ l, ∃ s ∈ acc.2.slots, s.date = p.1 ∧ s.time = p.2) →
      l.foldl seedOne acc = acc := by
  intro l
  induction l with
  | nil => exact fun acc _ => rfl
  | cons q l ih =>
      intro acc hall
      obtain ⟨s, hs, h1, h2⟩ := hall q (by simp)
      have hfind : (acc.2.slots.find?
          (fun s => s.date == q.1 && s.time == q.2)).isSome :=
        List.find?_isSome.2 ⟨s, hs, by simp [h1, h2]⟩
      obtain ⟨x, hx⟩ := Option.isSome_iff_exists.1 hfind
      have hseed : seedOne acc q = acc := by
        unfold seedOne
        rw [hx]
      rw [List.foldl_cons, hseed]
      exact ih acc (fun p hp => hall p (by simp [hp]))

/-- C5: running the bulk scheduler a second time with identical arguments
creates zero new slots and returns the store exactly as the first run left
it; an already-existing individual slot never fails the operation — it is
simply skipped. -/
theorem c5_bulk_seed_idempotent {db : DB} {start : String} {weeks : Nat}
    {c1 : Nat} {db1 : DB}
    (h : create_schedule_bulk db start weeks = .ok (c1, db1)) :
    create_schedule_bulk db1 start weeks = .ok (0, db1) := by
  unfold create_schedule_bulk at h ⊢
  cases hp : parseDate start with
  | none =>
      rw [hp] at h
      exact absurd h (by simp)
  | some z =>
      rw [hp] at h
      have hfold : (bulkPairs z weeks).foldl seedOne (0, db) = (c1, db1) :=
        Except.ok.inj h
      have hpresent : ∀ p ∈ bulkPairs z weeks,
          ∃ s ∈ db1.slots, s.date = p.1 ∧ s.time = p.2 := by
        intro p hp'
        obtain ⟨s, hs, h1, h2⟩ :=
          foldl_seedOne_establishes (bulkPairs z weeks) (0, db) p hp'
        rw [hfold] at hs
        exact ⟨s, hs, h1, h2⟩
      show Except.ok ((bulkPairs z weeks).foldl seedOne (0, db1))
        = Except.ok (0, db1)
      rw [foldl_seedOne_noop (bulkPairs z weeks) (0, db1) hpresent]

set_option maxRecDepth 8000 in
/-- Witness for C5: seeding one week from 2024-01-01 twice — the second run
reports zero created slots and leaves the store untouched. -/
theorem c5_bulk_seed_idempotent_witness :
    create_schedule_bulk emptyDB "2024-01-01" 1 = .ok (bulk1.1, bulk1.2) ∧
    create_schedule_bulk bulk1.2 "2024-01-01" 1 = .ok (0, bulk1.2) :=
  ⟨by decide,
   @c5_bulk_seed_idempotent emptyDB "2024-01-01" 1 bulk1.1 bulk1.2
     (by decide)⟩

/-! ### Claim C6: the one-week schedule from Monday 2024-01-01 -/

set_option maxRecDepth 8000 in
/-- C6: seeding one week from Monday 2024-01-01 on the empty store reports
86 created slots: Monday–Friday January 1–5 each get the 16 half-hour
times 08:00–11:30 and 16:00–19:30 (formatted `HH:MM:00`), Saturday
January 6 gets the 6 times 09:00–11:30, and Sunday January 7 gets none. -/
theorem c6_one_week_schedule :
    create_schedule_bulk emptyDB "2024-01-01" 1 = .ok (86, bulk1.2) ∧
    bulk1.1 = 86 ∧
    (bulk1.2.slots.filter (fun s => s.date == "2024-01-01")).map
      (fun s => s.time) =
      ["08:00:00", "08:30:00", "09:00:00", "09:30:00", "10:00:00",
       "10:30:00", "11:00:00", "11:30:00", "16:00:00", "16:30:00",
       "17:00:00", "17:30:00", "18:00:00", "18:30:00", "19:00:00",
       "19:30:00"] ∧
    (bulk1.2.slots.filter (fun s => s.date == "2024-01-02")).map
      (fun s => s.time) =
      ["08:00:00", "08:30:00", "09:00:00", "09:30:00", "10:00:00",
       "10:30:00", "11:00:00", "11:30:00", "16:00:00", "16:30:00",
       "17:00:00", "17:30:00", "18:00:00", "18:30:00", "19:00:00",
       "19:30:00"] ∧
    (bulk1.2.slots.filter (fun s => s.date == "2024-01-03")).map
      (fun s => s.time) =
      ["08:00:00", "08:30:00", "09:00:00", "09:30:00", "10:00:00",
       "10:30:00", "11:00:00", "11:30:00", "16:00:00", "16:30:00",
       "17:00:00", "17:30:00", "18:00:00", "18:30:00", "19:00:00",
       "19:30:00"] ∧
    (bulk1.2.slots.filter (fun s => s.date == "2024-01-04")).map
      (fun s => s.time) =
      ["08:00:00", "08:30:00", "09:00:00", "09:30:00", "10:00:00",
       "10:30:00", "11:00:00", "11:30:00", "16:00:00", "16:30:00",
       "17:00:00", "17:30:00", "18:00:00", "18:30:00", "19:00:00",
       "19:30:00"] ∧
    (bulk1.2.slots.filter (fun s => s.date == "2024-01-05")).map
      (fun s => s.time) =
      ["08:00:00", "08:30:00", "09:00:00", "09:30:00", "10:00:00",
       "10:30:00", "11:00:00", "11:30:00", "16:00:00", "16:30:00",
       "17:00:00", "17:30:00", "18:00:00", "18:30:00", "19:00:00",
       "19:30:00"] ∧
    (bulk1.2.slots.filter (fun s => s.date == "2024-01-06")).map
      (fun s => s.time) =
      ["09:00:00", "09:30:00", "10:00:00", "10:30:00", "11:00:00",
       "11:30:00"] ∧
    bulk1.2.slots.filter (fun s => s.date == "2024-01-07") = [] ∧
    bulk1.2.slots.all (fun s =>
      ["2024-01-01", "2024-01-02", "2024-01-03", "2024-01-04",
       "2024-01-05", "2024-01-06"].contains s.date) = true := by
  decide

end Sched
